import Mathlib

/-!
Verification of the schemaconvlib PostgreSQL driver
(src/schemaconvlib/src/drivers/postgres.rs).

The driver introspects PostgreSQL catalog metadata and normalizes it into a
backend-agnostic schema model (`Table` / `Column` / `DataType`).  The Rust
functions `pg_data_type`, `parse_full_table_name`, `fetch_from_url` and
`write_select_args` are embedded below as pure Lean functions; fallible Rust
code returning `Result` is embedded as `Except SchemaError`.  The database
connection and the query-execution engine are external collaborators: they are
modelled by passing the information-schema catalog in as a list of rows and
applying the filter / ORDER BY combinators that `fetch_from_url` attaches to
its query.
-/

deriving instance DecidableEq for Except

namespace SchemaConv

/-- The canonical, backend-independent data-type vocabulary from
schemaconvlib's `table.rs` (`enum DataType`): fourteen scalar variants plus
the `Array` and `Other` escape variants. -/
inductive DataType where
  | Array (element : DataType)
  | Bigint
  | Boolean
  | CharacterVarying
  | Date
  | DoublePrecision
  | Integer
  | Json
  | Jsonb
  | Numeric
  | Other (s : String)
  | Real
  | Smallint
  | Text
  | TimestampWithoutTimeZone
  | Uuid
deriving DecidableEq, Repr

/-- Error taxonomy for the driver.  In the Rust source all of these are
`failure::Error` values built with `format_err!`; the constructors here name
the distinct error sites and carry the same diagnostic payload (the offending
raw string) that the formatted message interpolates. -/
inductive SchemaError where
  | invalidNullabilityEncoding (value : String)
  | unknownArrayElementType (tag : String)
deriving DecidableEq, Repr

/-- Modelled from the spec: the canonical string-to-`DataType` parser
(`impl FromStr for DataType` in schemaconvlib's `table.rs`) is not under
`src/`; only its caller (`data_type.parse()` in `pg_data_type`) and the
driver's test `parsing_pg_data_type` are.  The spec's round-trip property
("bigint" to `Bigint`, and so on) fixes the arms for the fourteen canonical
scalar names; the in-repository test fixes the fallback arm, since it expects
`pg_data_type` (hence a bare `parse`) to map "interval", "name", "oid",
"regclass" and "regtype" each to `Other` carrying the string verbatim, so
unmatched strings parse to `Other` and parsing never fails. -/
def DataType.fromStr (s : String) : DataType :=
  if s = "bigint" then .Bigint
  else if s = "boolean" then .Boolean
  else if s = "character varying" then .CharacterVarying
  else if s = "date" then .Date
  else if s = "double precision" then .DoublePrecision
  else if s = "integer" then .Integer
  else if s = "json" then .Json
  else if s = "jsonb" then .Jsonb
  else if s = "numeric" then .Numeric
  else if s = "real" then .Real
  else if s = "smallint" then .Smallint
  else if s = "text" then .Text
  else if s = "timestamp without time zone" then .TimestampWithoutTimeZone
  else if s = "uuid" then .Uuid
  else .Other s

/-- The fourteen canonical scalar type names recognized by
`DataType.fromStr`. -/
def canonicalTypeNames : List String :=
  ["bigint", "boolean", "character varying", "date", "double precision",
   "integer", "json", "jsonb", "numeric", "real", "smallint", "text",
   "timestamp without time zone", "uuid"]

/-- The array-element lookup inside `pg_data_type` (postgres.rs lines
127-137): the `match udt_name` over the five underscore-prefixed internal
tags, with the `format_err!("unknown array element ...")` fallback arm. -/
def pg_array_element_type (udt_name : String) : Except SchemaError DataType :=
  if udt_name = "_bool" then .ok .Boolean
  else if udt_name = "_float8" then .ok .DoublePrecision
  else if udt_name = "_int4" then .ok .Integer
  else if udt_name = "_text" then .ok .Text
  else if udt_name = "_uuid" then .ok .Uuid
  else .error (.unknownArrayElementType udt_name)

/-- `pg_data_type` (postgres.rs lines 122-145): chooses a `DataType` for a
raw `(data_type, udt_schema, udt_name)` catalog triple.  `udt_schema` is
accepted but unused, exactly as the `_udt_schema` parameter in the source. -/
def pg_data_type (data_type : String) (_udt_schema : String)
    (udt_name : String) : Except SchemaError DataType :=
  if data_type = "ARRAY" then
    match pg_array_element_type udt_name with
    | .error e => .error e
    | .ok element_type => .ok (.Array element_type)
  else if data_type = "USER-DEFINED" then
    .ok (.Other udt_name)
  else
    .ok (DataType.fromStr data_type)

/-- A column of the normalized schema model (`struct Column` in `table.rs`,
as used by the driver: name, data type, nullability, and a comment the driver
always leaves as `none`). -/
structure Column where
  name : String
  data_type : DataType
  is_nullable : Bool
  comment : Option String
deriving DecidableEq, Repr

/-- A table of the normalized schema model (`struct Table` in `table.rs`):
a name and an ordered column sequence. -/
structure Table where
  name : String
  columns : List Column
deriving DecidableEq, Repr

/-- One raw row of `information_schema.columns` as the driver's diesel
`table!` block projects it (`struct PgColumn`, postgres.rs lines 31-41). -/
structure PgColumn where
  table_catalog : String
  table_schema : String
  table_name : String
  column_name : String
  ordinal_position : Int
  is_nullable : String
  data_type : String
  udt_schema : String
  udt_name : String
deriving DecidableEq, Repr

/-- `PgColumn::data_type` (postgres.rs lines 44-47): normalize one row's
type triple. -/
def PgColumn.dataType (pg_col : PgColumn) : Except SchemaError DataType :=
  pg_data_type pg_col.data_type pg_col.udt_schema pg_col.udt_name

/-- `parse_full_table_name` (postgres.rs lines 107-113): split a possibly
qualified table reference at the first '.'; with no '.', the schema defaults
to "public".  `find_char` below models Rust's `str::find` on a `char`
pattern; Rust's byte index and the character index used here slice the string
at the same boundary, the first '.', so the resulting pair is identical. -/
def find_char (c : Char) : List Char → Option Nat
  | [] => none
  | x :: xs => if x = c then some 0 else (find_char c xs).map (· + 1)

/-- See `find_char`: the embedding of `parse_full_table_name`. -/
def parse_full_table_name (full_table_name : String) : String × String :=
  match find_char '.' full_table_name.toList with
  | some pos =>
      (String.mk (full_table_name.toList.take pos),
       String.mk (full_table_name.toList.drop (pos + 1)))
  | none => ("public", full_table_name)

/-- The per-row body of the `for pg_col in pg_columns` loop in
`fetch_from_url` (postgres.rs lines 69-85): normalize the type first (the
`pg_col.data_type()?` call), then decode the nullability string, admitting
only "YES" and "NO" and failing with the `format_err!("Unexpected
is_nullable value ...")` error otherwise, and build a `Column` with
`comment := none`. -/
def processRow (pg_col : PgColumn) : Except SchemaError Column :=
  match pg_col.dataType with
  | .error e => .error e
  | .ok data_type =>
      if pg_col.is_nullable = "YES" then
        .ok { name := pg_col.column_name, data_type := data_type,
              is_nullable := true, comment := none }
      else if pg_col.is_nullable = "NO" then
        .ok { name := pg_col.column_name, data_type := data_type,
              is_nullable := false, comment := none }
      else
        .error (.invalidNullabilityEncoding pg_col.is_nullable)

/-- The whole row loop of `fetch_from_url`: rows are processed in order and
the first error aborts the fetch, exactly as the `?` operators inside the
`for` loop do. -/
def processRows : List PgColumn → Except SchemaError (List Column)
  | [] => .ok []
  | pg_col :: rest =>
      match processRow pg_col with
      | .error e => .error e
      | .ok col =>
          match processRows rest with
          | .error e => .error e
          | .ok cols => .ok (col :: cols)

/-- The ordering relation the driver's `ORDER BY` clause imposes
(`.order(columns::ordinal_position)`): ascending ordinal position. -/
def ordLe (a b : PgColumn) : Prop :=
  a.ordinal_position ≤ b.ordinal_position

instance : DecidableRel ordLe := fun a b =>
  inferInstanceAs (Decidable (a.ordinal_position ≤ b.ordinal_position))

instance : IsTotal PgColumn ordLe :=
  ⟨fun a b => Int.le_total a.ordinal_position b.ordinal_position⟩

instance : IsTrans PgColumn ordLe :=
  ⟨fun _ _ _ h₁ h₂ => Int.le_trans h₁ h₂⟩

/-- Modelled from the spec: executing the catalog query is the external
query collaborator ("run this filtered, ordered catalog query and return
rows of raw metadata strings").  The filter and ordering themselves come
from the query `fetch_from_url` builds (postgres.rs lines 63-66): equality
filters on `table_schema` and `table_name`, ordered by `ordinal_position`
ascending.  The engine is modelled as filtering the catalog list and sorting
the survivors ascending by ordinal position. -/
def catalogQuery (catalog : List PgColumn) (table_schema : String)
    (table_name : String) : List PgColumn :=
  List.insertionSort ordLe
    (catalog.filter (fun r =>
      r.table_schema = table_schema ∧ r.table_name = table_name))

/-- Assembly of the fetched `Table` from the loaded rows (postgres.rs lines
68-87): run the row loop and wrap the columns with the resolved table name. -/
def fetchFromRows (table_name : String) (pg_columns : List PgColumn) :
    Except SchemaError Table :=
  match processRows pg_columns with
  | .error e => .error e
  | .ok columns => .ok { name := table_name, columns := columns }

/-- `PostgresDriver::fetch_from_url` (postgres.rs lines 55-88), with the
connection replaced by the catalog contents: resolve the table reference,
run the filtered and ordered catalog query, and assemble the `Table`.
Connection establishment and its `ConnectionError` are the external
connection collaborator and are outside this model. -/
def fetch_from_url (catalog : List PgColumn) (full_table_name : String) :
    Except SchemaError Table :=
  let resolved := parse_full_table_name full_table_name
  fetchFromRows resolved.2 (catalogQuery catalog resolved.1 resolved.2)

/-- One character of Rust's `Debug` formatting for strings, which is what
`write!(f, "{:?}", col.name)` applies to each column name: '"' and '\\' get
a backslash escape, the common control characters get their two-character
escapes, and every other printable character stands for itself.  (Rust would
render further non-printable characters as unicode escapes; such characters
do not occur in the properties below.) -/
def rustDebugEscapeChar (c : Char) : String :=
  if c = '"' then "\\\""
  else if c = '\\' then "\\\\"
  else if c = '\n' then "\\n"
  else if c = '\r' then "\\r"
  else if c = '\t' then "\\t"
  else if c = Char.ofNat 0 then "\\0"
  else String.singleton c

/-- Rust's `format!("{:?}", s)` for a string `s`: the escaped body wrapped
in double quotes. -/
def rustDebugFormat (s : String) : String :=
  "\"" ++ String.join (s.toList.map rustDebugEscapeChar) ++ "\""

/-- `PostgresDriver::write_select_args` (postgres.rs lines 91-102), with the
`Write` sink replaced by the string it receives: the `first` flag suppresses
the separator before the first name, every later name is preceded by ",",
and each name is written with `{:?}` (Rust `Debug` formatting). -/
def write_select_args (table : Table) : String :=
  (table.columns.foldl
    (fun (acc : Bool × String) col =>
      let out := if acc.1 then acc.2 else acc.2 ++ ","
      (false, out ++ rustDebugFormat col.name))
    (true, "")).2

/-- The PostgreSQL identifier-quoting rule as the spec's words state it
("double-quote-wrapped identifier", embedded double quotes escaped per that
rule, i.e. doubled).  Stated only for comparison against the writer's actual
`Debug` formatting; it embeds no code of the repository. -/
def pgQuoteIdent (s : String) : String :=
  "\"" ++ String.join
    (s.toList.map (fun c => if c = '"' then "\"\"" else String.singleton c))
  ++ "\""

/-- Comma-separated join with no trailing separator: the output shape the
spec's words give the writer ("comma-separated, preserving order, with no
trailing separator").  Used to state the writer's contract. -/
def commaJoin : List String → String
  | [] => ""
  | [x] => x
  | x :: xs => x ++ ("," ++ commaJoin xs)

/-- The tail of a comma-separated list: every element preceded by ",". -/
def commaTail : List String → String
  | [] => ""
  | x :: xs => ("," ++ x) ++ commaTail xs

/-- Strings outside the canonical vocabulary parse to `Other` verbatim. -/
theorem fromStr_of_not_canonical (s : String) (h : s ∉ canonicalTypeNames) :
    DataType.fromStr s = .Other s := by
  simp only [canonicalTypeNames, List.mem_cons, List.mem_singleton, not_or,
    List.not_mem_nil] at h
  obtain ⟨h1, h2, h3, h4, h5, h6, h7, h8, h9, h10, h11, h12, h13, h14, -⟩ := h
  simp [DataType.fromStr, h1, h2, h3, h4, h5, h6, h7, h8, h9, h10, h11, h12,
    h13, h14]

/-- The generic parser never produces an `Array`. -/
theorem fromStr_ne_Array (s : String) (e : DataType) :
    DataType.fromStr s ≠ .Array e := by
  by_cases h : s ∈ canonicalTypeNames
  · simp only [canonicalTypeNames, List.mem_cons, List.mem_singleton,
      List.not_mem_nil, or_false] at h
    rcases h with h | h | h | h | h | h | h | h | h | h | h | h | h | h <;>
      subst h <;> exact fun hc => DataType.noConfusion hc
  · rw [fromStr_of_not_canonical s h]
    exact fun hc => DataType.noConfusion hc

/-- A successful array-element lookup lands in the five-tag scalar table. -/
theorem pg_array_element_type_ok {t : String} {el : DataType}
    (harr : pg_array_element_type t = .ok el) :
    el ∈ [DataType.Boolean, DataType.DoublePrecision, DataType.Integer,
          DataType.Text, DataType.Uuid] := by
  by_cases h : t ∈ ["_bool", "_float8", "_int4", "_text", "_uuid"]
  · simp only [List.mem_cons, List.mem_singleton, List.not_mem_nil,
      or_false] at h
    rcases h with h | h | h | h | h <;> subst h <;>
      (injection harr with h'; subst h'; simp)
  · simp only [List.mem_cons, List.mem_singleton, List.not_mem_nil, or_false,
      not_or] at h
    obtain ⟨h1, h2, h3, h4, h5⟩ := h
    unfold pg_array_element_type at harr
    rw [if_neg h1, if_neg h2, if_neg h3, if_neg h4, if_neg h5] at harr
    exact Except.noConfusion harr

/-- C7: for every namespace hint and every internal type tag, `pg_data_type`
applied to the "USER-DEFINED" sentinel succeeds with `Other` carrying the
internal tag verbatim. -/
theorem pg_data_type_user_defined (hint tag : String) :
    pg_data_type "USER-DEFINED" hint tag = .ok (.Other tag) := rfl

/-- C9: the `udt_schema` namespace-hint argument never influences the result
of `pg_data_type`. -/
theorem pg_data_type_hint_irrelevant (d h₁ h₂ t : String) :
    pg_data_type d h₁ t = pg_data_type d h₂ t := rfl

/-- C3: under any namespace hint, the "ARRAY" sentinel maps the five known
underscore-prefixed internal tags through the fixed element table
(`_bool` to `Array Boolean`, `_float8` to `Array DoublePrecision`, `_int4`
to `Array Integer`, `_text` to `Array Text`, `_uuid` to `Array Uuid`), and
every tag outside that table yields the `unknownArrayElementType` error,
never an `Other` fallback. -/
theorem pg_data_type_array_table (hint : String) :
    pg_data_type "ARRAY" hint "_bool" = .ok (.Array .Boolean) ∧
    pg_data_type "ARRAY" hint "_float8" = .ok (.Array .DoublePrecision) ∧
    pg_data_type "ARRAY" hint "_int4" = .ok (.Array .Integer) ∧
    pg_data_type "ARRAY" hint "_text" = .ok (.Array .Text) ∧
    pg_data_type "ARRAY" hint "_uuid" = .ok (.Array .Uuid) ∧
    ∀ tag, tag ∉ ["_bool", "_float8", "_int4", "_text", "_uuid"] →
      pg_data_type "ARRAY" hint tag = .error (.unknownArrayElementType tag) := by
  refine ⟨rfl, rfl, rfl, rfl, rfl, ?_⟩
  intro tag h
  simp only [List.mem_cons, List.mem_singleton, not_or, List.not_mem_nil] at h
  obtain ⟨h1, h2, h3, h4, h5, -⟩ := h
  simp [pg_data_type, pg_array_element_type, h1, h2, h3, h4, h5]

/-- C3 witness: the unknown tag "_unknown_tag" is rejected with the
`unknownArrayElementType` error. -/
theorem pg_data_type_array_table_witness :
    pg_data_type "ARRAY" "pg_catalog" "_unknown_tag" =
      .error (.unknownArrayElementType "_unknown_tag") :=
  (pg_data_type_array_table "pg_catalog").2.2.2.2.2 "_unknown_tag" (by decide)

/-- C10: every successful `Array` result of `pg_data_type` has its element
drawn from the five-element scalar set; in particular the element is never
itself an `Array` and never an `Other`. -/
theorem pg_data_type_array_element_closed (d h t : String) (e : DataType)
    (hok : pg_data_type d h t = .ok (.Array e)) :
    e ∈ [DataType.Boolean, DataType.DoublePrecision, DataType.Integer,
         DataType.Text, DataType.Uuid] := by
  unfold pg_data_type at hok
  by_cases hd : d = "ARRAY"
  · rw [if_pos hd] at hok
    cases harr : pg_array_element_type t with
    | error err => rw [harr] at hok; exact Except.noConfusion hok
    | ok el =>
      rw [harr] at hok
      injection hok with hok
      injection hok with hok
      subst hok
      exact pg_array_element_type_ok harr
  · rw [if_neg hd] at hok
    by_cases hu : d = "USER-DEFINED"
    · rw [if_pos hu] at hok
      injection hok with hok
      exact absurd hok (by exact fun hc => DataType.noConfusion hc)
    · rw [if_neg hu] at hok
      injection hok with hok
      exact absurd hok (fromStr_ne_Array d e)

/-- C10 witness: `pg_data_type "ARRAY" _ "_bool"` produces an `Array` whose
element is in the closed scalar set. -/
theorem pg_data_type_array_element_closed_witness :
    DataType.Boolean ∈ [DataType.Boolean, DataType.DoublePrecision,
      DataType.Integer, DataType.Text, DataType.Uuid] :=
  pg_data_type_array_element_closed "ARRAY" "pg_catalog" "_bool"
    DataType.Boolean (by decide)

/-- C1 counterexample: contrary to the claim, a declared type that the
canonical vocabulary does not contain and that is neither "ARRAY" nor
"USER-DEFINED" does not make `pg_data_type` fail.  At "interval" — one of
the claim's own example inputs, and the expectation the driver's test
`parsing_pg_data_type` records (postgres.rs lines 163-164) — the result is
`Other "interval"`, not an error. -/
theorem pg_data_type_interval_counterexample :
    pg_data_type "interval" "pg_catalog" "interval" =
      .ok (.Other "interval") := rfl

/-- C1 amended: for every declared-type string that is neither "ARRAY" nor
"USER-DEFINED", `pg_data_type` succeeds with the canonical parse of the
string, and whenever the string is outside the canonical vocabulary (such
as "totally_unknown_type", "interval", "name" or "oid") the parse is
`Other` carrying the string verbatim — never an error. -/
theorem pg_data_type_parse_fallback (s hint tag : String)
    (hA : s ≠ "ARRAY") (hU : s ≠ "USER-DEFINED") :
    pg_data_type s hint tag = .ok (DataType.fromStr s) ∧
    (s ∉ canonicalTypeNames → pg_data_type s hint tag = .ok (.Other s)) := by
  have hmain : pg_data_type s hint tag = .ok (DataType.fromStr s) := by
    unfold pg_data_type
    rw [if_neg hA, if_neg hU]
  exact ⟨hmain, fun h => by rw [hmain, fromStr_of_not_canonical s h]⟩

/-- C1 amended witness: "totally_unknown_type" parses to `Other` verbatim. -/
theorem pg_data_type_parse_fallback_witness :
    pg_data_type "totally_unknown_type" "pg_catalog" "anything" =
      .ok (.Other "totally_unknown_type") :=
  (pg_data_type_parse_fallback "totally_unknown_type" "pg_catalog" "anything"
    (by decide) (by decide)).2 (by decide)

/-- `find_char` misses exactly when the character is absent. -/
theorem find_char_of_not_mem (c : Char) :
    ∀ {l : List Char}, c ∉ l → find_char c l = none
  | [], _ => rfl
  | x :: xs, h => by
    have hx : ¬ x = c := fun hxc => h (by rw [← hxc]; exact List.mem_cons_self x xs)
    have hxs : c ∉ xs := fun hm => h (List.mem_cons_of_mem x hm)
    unfold find_char
    rw [if_neg hx, find_char_of_not_mem c hxs]
    rfl

/-- `find_char` returns the index of the first occurrence. -/
theorem find_char_append (c : Char) :
    ∀ (l₁ l₂ : List Char), c ∉ l₁ →
      find_char c (l₁ ++ c :: l₂) = some l₁.length
  | [], l₂, _ => by simp [find_char]
  | x :: xs, l₂, h => by
    have hx : ¬ x = c := fun hxc => h (by rw [← hxc]; exact List.mem_cons_self x xs)
    have hxs : c ∉ xs := fun hm => h (List.mem_cons_of_mem x hm)
    simp only [List.cons_append]
    unfold find_char
    rw [if_neg hx, find_char_append c xs l₂ hxs]
    rfl

/-- C6: `parse_full_table_name` splits at the first '.' — the prefix is the
schema and the entire remainder (which may itself contain '.') is the name,
so "a.b.c" yields ("a", "b.c"); with no '.', the schema defaults to
"public" and the name is the whole string, including the degenerate empty
string; the function is total by construction. -/
theorem parse_full_table_name_spec (s : String) :
    (∀ l₁ l₂, s.toList = l₁ ++ '.' :: l₂ → '.' ∉ l₁ →
        parse_full_table_name s = (String.mk l₁, String.mk l₂)) ∧
    ('.' ∉ s.toList → parse_full_table_name s = ("public", s)) ∧
    parse_full_table_name "a.b.c" = ("a", "b.c") ∧
    parse_full_table_name "" = ("public", "") := by
  refine ⟨?_, ?_, by decide, by decide⟩
  · intro l₁ l₂ heq hnot
    have ht : (l₁ ++ '.' :: l₂).take l₁.length = l₁ := by simp
    have hd : (l₁ ++ '.' :: l₂).drop (l₁.length + 1) = l₂ := by
      have hsplit : l₁ ++ '.' :: l₂ = (l₁ ++ ['.']) ++ l₂ := by simp
      rw [hsplit, show l₁.length + 1 = (l₁ ++ ['.']).length by simp]
      simp
    unfold parse_full_table_name
    rw [heq, find_char_append '.' l₁ l₂ hnot]
    simp only [ht, hd]
  · intro h
    unfold parse_full_table_name
    rw [find_char_of_not_mem '.' h]

/-- C6 witness: "a.b" splits into schema "a" and name "b". -/
theorem parse_full_table_name_spec_witness :
    parse_full_table_name "a.b" = (String.mk ['a'], String.mk ['b']) :=
  (parse_full_table_name_spec "a.b").1 ['a'] ['b'] (by decide) (by decide)

/-- C8: a table reference whose catalog query matches zero rows fetches
successfully, producing a `Table` whose name is the resolved name part and
whose column sequence is empty, rather than an error. -/
theorem fetch_empty_table (catalog : List PgColumn) (full : String)
    (h : catalogQuery catalog (parse_full_table_name full).1
          (parse_full_table_name full).2 = []) :
    fetch_from_url catalog full =
      .ok { name := (parse_full_table_name full).2, columns := [] } := by
  show fetchFromRows (parse_full_table_name full).2
      (catalogQuery catalog (parse_full_table_name full).1
        (parse_full_table_name full).2) = _
  rw [h]
  rfl

/-- C8 witness: fetching "foo.bar" from an empty catalog yields the empty
table named "bar". -/
theorem fetch_empty_table_witness :
    fetch_from_url [] "foo.bar" =
      .ok { name := (parse_full_table_name "foo.bar").2, columns := [] } :=
  fetch_empty_table [] "foo.bar" (by decide)

/-- A successfully processed row keeps its column name and decodes "YES" to
nullable, "NO" to non-nullable — no other value can succeed. -/
theorem processRow_ok_fields {r : PgColumn} {c : Column}
    (h : processRow r = .ok c) :
    c.name = r.column_name ∧
      ((r.is_nullable = "YES" ∧ c.is_nullable = true) ∨
       (r.is_nullable = "NO" ∧ c.is_nullable = false)) := by
  unfold processRow at h
  revert h
  cases hd : r.dataType with
  | error e => intro h; exact Except.noConfusion h
  | ok d =>
    intro h
    dsimp only at h
    by_cases hy : r.is_nullable = "YES"
    · rw [if_pos hy] at h
      injection h with h
      subst h
      exact ⟨rfl, Or.inl ⟨hy, rfl⟩⟩
    · rw [if_neg hy] at h
      by_cases hn : r.is_nullable = "NO"
      · rw [if_pos hn] at h
        injection h with h
        subst h
        exact ⟨rfl, Or.inr ⟨hn, rfl⟩⟩
      · rw [if_neg hn] at h
        exact Except.noConfusion h

/-- A successful row loop processes the rows pointwise, in order. -/
theorem processRows_ok_get :
    ∀ {rows : List PgColumn} {cols : List Column},
      processRows rows = .ok cols →
      cols.length = rows.length ∧
      ∀ i (h1 : i < rows.length) (h2 : i < cols.length),
        processRow (rows.get ⟨i, h1⟩) = .ok (cols.get ⟨i, h2⟩)
  | [], cols, h => by
    injection h with h
    subst h
    exact ⟨rfl, fun i h1 _ => absurd h1 (Nat.not_lt_zero i)⟩
  | r :: rs, cols, h => by
    unfold processRows at h
    revert h
    cases hr : processRow r with
    | error e => intro h; exact Except.noConfusion h
    | ok c =>
      cases hrs : processRows rs with
      | error e => intro h; exact Except.noConfusion h
      | ok cs =>
        intro h
        dsimp only at h
        injection h with h
        subst h
        obtain ⟨hlen, hget⟩ := processRows_ok_get hrs
        refine ⟨by simp [hlen], fun i h1 h2 => ?_⟩
        cases i with
        | zero => exact hr
        | succ j =>
          exact hget j (Nat.lt_of_succ_lt_succ h1) (Nat.lt_of_succ_lt_succ h2)

/-- A successful row loop processed every row successfully. -/
theorem processRows_ok_mem {rows : List PgColumn} {cols : List Column}
    (h : processRows rows = .ok cols) :
    ∀ r ∈ rows, ∃ c, processRow r = .ok c := by
  intro r hr
  obtain ⟨⟨i, hi⟩, rfl⟩ := List.mem_iff_get.mp hr
  obtain ⟨hlen, hget⟩ := processRows_ok_get h
  exact ⟨_, hget i hi (by omega)⟩

/-- C4: in a fetched table, every column's nullability comes from the
two-valued "YES"/"NO" encoding of its catalog row ("YES" decoding to
nullable and "NO" to non-nullable); a row with any other nullability string
makes the whole fetch fail, and the row itself fails with the
`invalidNullabilityEncoding` error carrying the offending value, so no
default nullability is ever assumed. -/
theorem fetch_nullability (rows : List PgColumn) (tname : String) :
    (∀ t, fetchFromRows tname rows = .ok t →
        t.columns.length = rows.length ∧
        ∀ i (h1 : i < rows.length) (h2 : i < t.columns.length),
          ((rows.get ⟨i, h1⟩).is_nullable = "YES" ∧
            (t.columns.get ⟨i, h2⟩).is_nullable = true) ∨
          ((rows.get ⟨i, h1⟩).is_nullable = "NO" ∧
            (t.columns.get ⟨i, h2⟩).is_nullable = false)) ∧
    (∀ r ∈ rows, r.is_nullable ≠ "YES" → r.is_nullable ≠ "NO" →
        ∃ e, fetchFromRows tname rows = .error e) ∧
    (∀ r : PgColumn, r.is_nullable ≠ "YES" → r.is_nullable ≠ "NO" →
        (∃ d, r.dataType = .ok d) →
        processRow r = .error (.invalidNullabilityEncoding r.is_nullable)) := by
  refine ⟨?_, ?_, ?_⟩
  · intro t ht
    unfold fetchFromRows at ht
    revert ht
    cases hp : processRows rows with
    | error e => intro ht; exact Except.noConfusion ht
    | ok cols =>
      intro ht
      dsimp only at ht
      injection ht with ht
      subst ht
      obtain ⟨hlen, hget⟩ := processRows_ok_get hp
      refine ⟨hlen, fun i h1 h2 => ?_⟩
      rcases (processRow_ok_fields (hget i h1 h2)).2 with ⟨hy, hc⟩ | ⟨hn, hc⟩
      · exact Or.inl ⟨hy, hc⟩
      · exact Or.inr ⟨hn, hc⟩
  · intro r hr hy hn
    cases hp : fetchFromRows tname rows with
    | error e => exact ⟨e, rfl⟩
    | ok t =>
      exfalso
      unfold fetchFromRows at hp
      revert hp
      cases hq : processRows rows with
      | error e => intro hp; exact Except.noConfusion hp
      | ok cols =>
        intro _
        obtain ⟨c, hc⟩ := processRows_ok_mem hq r hr
        rcases (processRow_ok_fields hc).2 with ⟨h', _⟩ | ⟨h', _⟩
        · exact hy h'
        · exact hn h'
  · rintro r hy hn ⟨d, hd⟩
    unfold processRow
    rw [hd]
    dsimp only
    rw [if_neg hy, if_neg hn]

/-- C4 witness: a row whose nullability string is "MAYBE" (with a valid
data type) fails with the `invalidNullabilityEncoding` error carrying
"MAYBE". -/
theorem fetch_nullability_witness :
    processRow { table_catalog := "db", table_schema := "public",
                 table_name := "t", column_name := "c",
                 ordinal_position := 1, is_nullable := "MAYBE",
                 data_type := "text", udt_schema := "pg_catalog",
                 udt_name := "text" } =
      .error (.invalidNullabilityEncoding "MAYBE") :=
  (fetch_nullability [] "t").2.2
    { table_catalog := "db", table_schema := "public", table_name := "t",
      column_name := "c", ordinal_position := 1, is_nullable := "MAYBE",
      data_type := "text", udt_schema := "pg_catalog", udt_name := "text" }
    (by decide) (by decide) ⟨DataType.Text, by decide⟩

/-- Unrolling the writer's fold once the `first` flag has been cleared:
every remaining name is preceded by a ",". -/
theorem write_fold_tail (cols : List Column) :
    ∀ s : String,
      (cols.foldl
        (fun (acc : Bool × String) col =>
          let out := if acc.1 then acc.2 else acc.2 ++ ","
          (false, out ++ rustDebugFormat col.name)) (false, s)).2
      = s ++ commaTail (cols.map (fun col => rustDebugFormat col.name)) := by
  induction cols with
  | nil => intro s; simp [commaTail]
  | cons c cs ih =>
    intro s
    show (cs.foldl _ (false, (s ++ ",") ++ rustDebugFormat c.name)).2 = _
    rw [ih]
    simp only [List.map_cons, commaTail, String.append_assoc]

/-- `commaJoin` is the head followed by the comma-prefixed tail. -/
theorem commaJoin_cons (x : String) (xs : List String) :
    commaJoin (x :: xs) = x ++ commaTail xs := by
  induction xs generalizing x with
  | nil =>
    show x = x ++ ""
    rw [String.append_empty]
  | cons y ys ih =>
    show x ++ ("," ++ commaJoin (y :: ys)) = x ++ (("," ++ y) ++ commaTail ys)
    rw [ih y, String.append_assoc]

/-- C2 counterexample: for the table whose columns are named "id",
"user name" and "x\"y", the writer's output escapes the embedded double
quote with a backslash — Rust's `Debug` string formatting, produced by the
`write!(f, "{:?}", col.name)` in the source — which is not the PostgreSQL
identifier-quoting rule (doubling the quote), so the output differs from
the PostgreSQL-rule-quoted comma-joined list the claim asserts. -/
theorem write_select_args_counterexample :
    write_select_args
        { name := "t",
          columns := [
            { name := "id", data_type := DataType.Text,
              is_nullable := true, comment := none },
            { name := "user name", data_type := DataType.Text,
              is_nullable := true, comment := none },
            { name := "x\"y", data_type := DataType.Text,
              is_nullable := true, comment := none }] }
      = "\"id\",\"user name\",\"x\\\"y\"" ∧
    write_select_args
        { name := "t",
          columns := [
            { name := "id", data_type := DataType.Text,
              is_nullable := true, comment := none },
            { name := "user name", data_type := DataType.Text,
              is_nullable := true, comment := none },
            { name := "x\"y", data_type := DataType.Text,
              is_nullable := true, comment := none }] }
      ≠ commaJoin (["id", "user name", "x\"y"].map pgQuoteIdent) := by
  constructor
  · decide
  · decide

/-- C2 amended: for every table, `write_select_args` writes the column
names in column order, each formatted with Rust's `Debug` string formatting
(double-quote wrapped, embedded double quotes and backslashes escaped with
a preceding backslash — which agrees with the PostgreSQL rule only for
names free of '"' and '\\'), comma-separated with separators only between
adjacent names and no trailing separator. -/
theorem write_select_args_spec (table : Table) :
    write_select_args table =
      commaJoin (table.columns.map (fun col => rustDebugFormat col.name)) := by
  unfold write_select_args
  cases hc : table.columns with
  | nil => rfl
  | cons c cs =>
    show (cs.foldl _ (false, "" ++ rustDebugFormat c.name)).2 = _
    rw [write_fold_tail, List.map_cons, commaJoin_cons, String.empty_append]

/-- C5: the catalog query result is sorted ascending by ordinal position
whatever physical order the catalog holds the rows in, it is a permutation
of the rows matching the schema/name filter, and a successful fetch
assembles the columns in exactly that query order, so `Table.columns`
mirrors the ascending ordinal order. -/
theorem fetch_ordering (catalog : List PgColumn) (s n : String) :
    List.Sorted ordLe (catalogQuery catalog s n) ∧
    List.Perm (catalogQuery catalog s n)
      (catalog.filter (fun r => r.table_schema = s ∧ r.table_name = n)) ∧
    ∀ t, fetchFromRows n (catalogQuery catalog s n) = .ok t →
      t.columns.length = (catalogQuery catalog s n).length ∧
      ∀ i (h1 : i < (catalogQuery catalog s n).length)
          (h2 : i < t.columns.length),
        (t.columns.get ⟨i, h2⟩).name =
          ((catalogQuery catalog s n).get ⟨i, h1⟩).column_name := by
  refine ⟨List.sorted_insertionSort ordLe _,
    List.perm_insertionSort ordLe _, ?_⟩
  intro t ht
  unfold fetchFromRows at ht
  revert ht
  cases hp : processRows (catalogQuery catalog s n) with
  | error e => intro ht; exact Except.noConfusion ht
  | ok cols =>
    intro ht
    dsimp only at ht
    injection ht with ht
    subst ht
    obtain ⟨hlen, hget⟩ := processRows_ok_get hp
    exact ⟨hlen, fun i h1 h2 => (processRow_ok_fields (hget i h1 h2)).1⟩

/-- C5 witness: a two-row catalog given in descending physical order is
fetched with as many columns as the query returns, the query having
reordered the rows ascending by ordinal position. -/
theorem fetch_ordering_witness :
    (Table.mk "t"
      [{ name := "a", data_type := DataType.Text,
         is_nullable := true, comment := none },
       { name := "b", data_type := DataType.Text,
         is_nullable := true, comment := none }]).columns.length
      = (catalogQuery
          [{ table_catalog := "db", table_schema := "public",
             table_name := "t", column_name := "b", ordinal_position := 2,
             is_nullable := "YES", data_type := "text",
             udt_schema := "pg_catalog", udt_name := "text" },
           { table_catalog := "db", table_schema := "public",
             table_name := "t", column_name := "a", ordinal_position := 1,
             is_nullable := "YES", data_type := "text",
             udt_schema := "pg_catalog", udt_name := "text" }]
          "public" "t").length :=
  ((fetch_ordering
      [{ table_catalog := "db", table_schema := "public",
         table_name := "t", column_name := "b", ordinal_position := 2,
         is_nullable := "YES", data_type := "text",
         udt_schema := "pg_catalog", udt_name := "text" },
       { table_catalog := "db", table_schema := "public",
         table_name := "t", column_name := "a", ordinal_position := 1,
         is_nullable := "YES", data_type := "text",
         udt_schema := "pg_catalog", udt_name := "text" }]
      "public" "t").2.2
    (Table.mk "t"
      [{ name := "a", data_type := DataType.Text,
         is_nullable := true, comment := none },
       { name := "b", data_type := DataType.Text,
         is_nullable := true, comment := none }])
    (by decide)).1

end SchemaConv
